import Mathlib

/-!
Shallow embedding of the reconciliation engine of `src/app.py`
(FreshTrack Analytics).  Spreadsheet cells are modelled by `Cell`
(missing / numeric / text / date); Python floats are modelled by
rationals; operations that can raise a Python `TypeError` or
`ValueError` return `Except String`.  The embedding covers the column
checks and positional price-list rename of `compare_files`, the month
filter, the left merge on the SKU column, the per-row status
classifier `status_row`, the delta column, the quick result-filter
section of the app, and `build_message`.
-/

deriving instance DecidableEq for Except

namespace FVC

/-- Calendar dates as produced by the spreadsheet reader / `pd.to_datetime`. -/
structure Date where
  y : Int
  m : Int
  d : Int
deriving DecidableEq, BEq, Repr

/-- Lexicographic order on dates, mirroring comparison of Python `datetime.date`. -/
def dateLe (a b : Date) : Bool :=
  (a.y < b.y) || (a.y == b.y && ((a.m < b.m) || (a.m == b.m && a.d ≤ b.d)))

/-- A spreadsheet cell: missing (`NaN`/`NaT`/`None`), a number, a text, or a date. -/
inductive Cell where
  | na : Cell
  | num : ℚ → Cell
  | str : String → Cell
  | date : Date → Cell
deriving DecidableEq, Repr

/-- Mirrors `pd.isna` on a scalar cell: only the missing marker is "na";
numbers, strings and dates are not. -/
def Cell.isna : Cell → Bool
  | Cell.na => true
  | _ => false

/-- The cell holds a number. -/
def Cell.isNum : Cell → Bool
  | Cell.num _ => true
  | _ => false

/-- The cell is either missing or numeric (the domain on which the price
arithmetic of `status_row` and the delta column cannot raise). -/
def isNumOrNa (c : Cell) : Bool := c.isna || c.isNum

/-- Mirrors `pd.to_datetime(..., errors='coerce')` on one cell: date cells
survive, everything else (missing, numbers, unparseable text — string date
parsing is abstracted as reader-typed `Cell.date` values) coerces to `NaT`,
modelled as `none`. -/
def toDatetime : Cell → Option Date
  | Cell.date d => some d
  | _ => none

/-- Indexed cell access in a row, out-of-range reads as missing. -/
def cellAt (r : List Cell) (i : Nat) : Cell := r.getD i Cell.na

/-- A raw table as read by `pd.read_excel`: header strings plus rows of cells
(rows aligned with the headers positionally). -/
structure Table where
  headers : List String
  rows : List (List Cell)
deriving DecidableEq, Repr

/-- The four status strings of `status_row`: match. -/
def stMatch : String := "✅ תואם"

/-- Status string: price differs. -/
def stMismatch : String := "❌ מחיר שונה"

/-- Status string: SKU not found in the price list. -/
def stMissing : String := "🟡 לא נמצא במחירון"

/-- Status string: actual price missing. -/
def stActualMissing : String := "⚠️ מחיר בפועל חסר"

/-- A single-quote character, built numerically so the source file carries no
literal apostrophe. -/
def sq : String := String.singleton (Char.ofNat 39)

/-- Error text of the pandas positional rename `pricing_df.columns = [...]`
when the price-list file does not have exactly three columns. -/
def errLen : String := "Length mismatch: Expected axis has 3 elements"

/-- Error text raised when the expense table has no date column. -/
def errDate : String := "בקובץ הוצאות חסרה עמודת " ++ sq ++ "תאריך" ++ sq

/-- Error text raised when no actual-price column candidate is present. -/
def errPrice : String := "בקובץ הוצאות חסרה עמודת " ++ sq ++ "מחיר לפני מע\"מ" ++ sq

/-- Error text raised when the expense table has no exact SKU column. -/
def errSku : String := "בקובץ הוצאות חסרה עמודת " ++ sq ++ "מקט" ++ sq

/-- Error marker for a Python `TypeError` escaping the price arithmetic
(subtraction involving a non-missing, non-numeric operand). -/
def errType : String := "TypeError"

/-- Executable absolute value on rationals, modelling Python's `abs`. -/
def ratAbs (x : ℚ) : ℚ := if x < 0 then -x else x

/-- Kernel-reducible subtraction on rationals (the library subtraction is
irreducible, which would block evaluation of concrete runs); proved equal to
the library subtraction below. -/
def ratSub (a b : ℚ) : ℚ :=
  mkRat (a.num * b.den - b.num * a.den) (a.den * b.den)

/-- Per-row status classifier of `compare_files` (`status_row` in the source):
missing expected price first, then missing actual price, then exact
comparison `abs(p_list - p_actual) <= 0.00`; subtracting a present
non-number raises. -/
def status_row (p_list p_actual : Cell) : Except String String :=
  if (p_list.isna) = true then Except.ok stMissing
  else if (p_actual.isna) = true then Except.ok stActualMissing
  else
    match p_list, p_actual with
    | Cell.num a, Cell.num b =>
        Except.ok (if ratAbs (ratSub a b) ≤ (0 : ℚ) then stMatch else stMismatch)
    | _, _ => Except.error errType

/-- Element of the delta column `merged[price_col] - merged['מחירון']`:
`NaN` propagates to a null delta, two numbers subtract, and any present
non-number raises. First argument is the actual price, second the expected. -/
def deltaCell (actual expected : Cell) : Except String (Option ℚ) :=
  match actual, expected with
  | Cell.num a, Cell.num e => Except.ok (some (ratSub a e))
  | Cell.na, Cell.num _ => Except.ok none
  | Cell.num _, Cell.na => Except.ok none
  | Cell.na, Cell.na => Except.ok none
  | _, _ => Except.error errType

/-- Candidate spellings for the actual-price column, in the order the source
loop tries them. -/
def priceCandidates : List String :=
  ["מחיר לפני מע\"מ", "מחיר לפני מע״מ", "מחיר_לפני_מע\"מ", "מחיר"]

/-- First actual-price candidate present among the expense headers
(the `for cand in [...]` / `break` loop of the source). -/
def findPriceCol (headers : List String) : Option String :=
  priceCandidates.find? (fun c => headers.contains c)

/-- Month-membership predicate of the temporal filter:
`expenses_df['תאריך'].dt.month == month` after coercion; a `NaT` date
compares false and the row is dropped. -/
def inMonth (dIdx : Nat) (month : Int) (r : List Cell) : Bool :=
  match toDatetime (cellAt r dIdx) with
  | some d => d.m == month
  | none => false

/-- The temporal filter: keep exactly the rows dated in the target month. -/
def filterMonth (dIdx : Nat) (month : Int) (rows : List (List Cell)) :
    List (List Cell) :=
  rows.filter (inMonth dIdx month)

/-- Join-key equality of `merge(on='מקט')`: equal values of equal kind
match; the missing marker never matches anything (pandas `NaN` keys do not
join), and values are compared verbatim with no numeric coercion. -/
def joinEq : Cell → Cell → Bool
  | Cell.num a, Cell.num b => a == b
  | Cell.str a, Cell.str b => a == b
  | Cell.date a, Cell.date b => a == b
  | _, _ => false

/-- Price-list rows matching one expense row under the SKU key
(price-list SKU sits at position 0 after the positional rename). -/
def matchesFor (sIdx : Nat) (prows : List (List Cell)) (r : List Cell) :
    List (List Cell) :=
  prows.filter (fun p => joinEq (cellAt r sIdx) (cellAt p 0))

/-- Output block of one expense row in the left merge: one row carrying the
matched expected price (position 2 of the renamed price list) per match, or a
single row with a missing expected price when no price-list row matches. -/
def rowOut (sIdx : Nat) (prows : List (List Cell)) (r : List Cell) :
    List (List Cell × Cell) :=
  if (matchesFor sIdx prows r).isEmpty then [(r, Cell.na)]
  else (matchesFor sIdx prows r).map (fun p => (r, cellAt p 2))

/-- The left merge `expenses_df.merge(pricing_df, on='מקט', how='left')`:
expense rows in order, each expanded to its output block. -/
def mergeRows (sIdx : Nat) : List (List Cell) → List (List Cell) →
    List (List Cell × Cell)
  | [], _ => []
  | r :: rs, prows => rowOut sIdx prows r ++ mergeRows sIdx rs prows

/-- One reconciled output row: the original expense cells, the matched
expected price, the status string, and the numeric delta column value. -/
structure MRow where
  cells : List Cell
  expected : Cell
  status : String
  delta : Option ℚ
deriving DecidableEq, Repr

/-- Status and delta computation for one merged row; either price column
computation raising makes the row (and hence the run) fail. -/
def classifyRow (pIdx : Nat) (pr : List Cell × Cell) : Except String MRow :=
  match status_row pr.2 (cellAt pr.1 pIdx) with
  | Except.error m => Except.error m
  | Except.ok st =>
      match deltaCell (cellAt pr.1 pIdx) pr.2 with
      | Except.error m => Except.error m
      | Except.ok dl => Except.ok (MRow.mk pr.1 pr.2 st dl)

/-- Error-propagating map over a list, modelling column-wise pandas
computations that raise on the first bad element. -/
def mapME (f : α → Except String β) : List α → Except String (List β)
  | [] => Except.ok []
  | a :: as =>
      match f a with
      | Except.error m => Except.error m
      | Except.ok b =>
          match mapME f as with
          | Except.error m => Except.error m
          | Except.ok bs => Except.ok (b :: bs)

/-- The comparison run of the source (`compare_files`), excluding the Excel
export side effects: positional price-list rename (raising on a column-count
mismatch), date-column check, month filter, actual-price and SKU column
checks on the expense table, left merge, and per-row status/delta
computation. -/
def compare_files (pricing expense : Table) (month : Int) :
    Except String (List MRow) :=
  if pricing.headers.length = 3 then
    if "תאריך" ∈ expense.headers then
      match findPriceCol expense.headers with
      | none => Except.error errPrice
      | some pc =>
        if "מקט" ∈ expense.headers then
          mapME
            (classifyRow (expense.headers.findIdx (fun h => h == pc)))
            (mergeRows (expense.headers.findIdx (fun h => h == "מקט"))
              (filterMonth (expense.headers.findIdx (fun h => h == "תאריך"))
                month expense.rows)
              pricing.rows)
        else Except.error errSku
    else Except.error errDate
  else Except.error errLen

/-- The application's compare trigger: the button handler always calls
`compare_files(pricing_file, expense_file, month=6)`, with no month
selection offered anywhere in the UI. -/
def run_compare (pricing expense : Table) : Except String (List MRow) :=
  compare_files pricing expense 6

/-- The SKU header spelling with the Hebrew gershayim mark (U+05F4). -/
def skuGershayim : String := "מק״ט"

/-- The SKU header spelling with an ASCII apostrophe. -/
def skuApostrophe : String := "מק" ++ sq ++ "ט"

/-- The SKU header spelling with an ASCII double quote. -/
def skuAsciiQuote : String := "מק\"ט"

/-- The serial-column candidate spellings of the quick-filter section, in
source order. -/
def serial_candidates : List String := ["מקט", skuGershayim, skuApostrophe]

/-- Serial-column lookup of the quick-filter section:
`next((c for c in serial_candidates if c in df.columns), None)` — the first
candidate that is literally a column name, with no header normalization. -/
def resolveSerialCol (headers : List String) : Option String :=
  serial_candidates.find? (fun c => headers.contains c)

/-- One row of the displayed reconciled table as seen by the quick-filter
section, restricted to the columns its predicates read. A `none` cell is a
missing value (`NaN`/`NaT`). -/
structure FRow where
  client : Option String
  doc : Option String
  status : String
  date : Option Date
  supply : Option Date
  serial : Option String
  item : Option String
deriving DecidableEq, Repr

/-- Which filterable columns are present in the reconciled table (the
`if '...' in df_filtered.columns` guards of the source; for the two date
columns the flag also covers the datetime-dtype test). -/
structure Cols where
  client : Bool
  doc : Bool
  status : Bool
  date : Bool
  supply : Bool
  serial : Bool
  item : Bool
deriving DecidableEq, Repr

/-- Whitespace test for the string-strip model. -/
def isWhite (c : Char) : Bool :=
  c == Char.ofNat 32 || c == Char.ofNat 9 || c == Char.ofNat 10 ||
    c == Char.ofNat 13

/-- Kernel-reducible model of Python's `str.strip` / `String.trim`: drops
leading and trailing whitespace. -/
def strTrim (s : String) : String :=
  String.mk (((s.toList.dropWhile isWhite).reverse.dropWhile isWhite).reverse)

/-- Mirrors `.astype(str)` on one optional value: a missing value prints as
the string "nan". -/
def astypeStr (o : Option String) : String :=
  match o with
  | some s => s
  | none => "nan"

/-- Character-list prefix test. -/
def isPrefixChars : List Char → List Char → Bool
  | [], _ => true
  | _ :: _, [] => false
  | a :: as, b :: bs => a == b && isPrefixChars as bs

/-- Character-list contiguous-substring test. -/
def containsChars (needle : List Char) : List Char → Bool
  | [] => isPrefixChars needle []
  | hay@(_ :: rest) => isPrefixChars needle hay || containsChars needle rest

/-- Case-insensitive substring containment, modelling
`.str.contains(query, case=False)` on plain text (the regex reading of the
query is abstracted to literal containment). -/
def containsCI (s q : String) : Bool :=
  containsChars q.toLower.toList s.toLower.toList

/-- Client multiselect stage: active only when the column exists and the
selection is non-empty; compares `astype(str)` values. -/
def stageClient (cols : Cols) (chosen : List String) (l : List FRow) :
    List FRow :=
  if cols.client && !chosen.isEmpty then
    l.filter (fun r => chosen.contains (astypeStr r.client))
  else l

/-- Document multiselect stage. -/
def stageDoc (cols : Cols) (chosen : List String) (l : List FRow) :
    List FRow :=
  if cols.doc && !chosen.isEmpty then
    l.filter (fun r => chosen.contains (astypeStr r.doc))
  else l

/-- Status multiselect stage (`isin` on the status column, no `astype`). -/
def stageStatus (cols : Cols) (chosen : List String) (l : List FRow) :
    List FRow :=
  if cols.status && !chosen.isEmpty then
    l.filter (fun r => chosen.contains r.status)
  else l

/-- Date-range stage for one date column: skipped when the column is absent
or every value is missing; otherwise, when the widget yields a two-element
range (its default is the full min-max range of the current column), keeps
exactly the rows whose date lies inclusively inside — a missing date
compares false and is dropped. -/
def stageRange (active : Bool) (range : Option (Date × Date))
    (get : FRow → Option Date) (l : List FRow) : List FRow :=
  if active && !(l.all (fun r => (get r).isNone)) then
    match range with
    | some (s, e) =>
        l.filter (fun r =>
          match get r with
          | some d => dateLe s d && dateLe d e
          | none => false)
    | none => l
  else l

/-- Serial-number multiselect stage. -/
def stageSerial (cols : Cols) (chosen : List String) (l : List FRow) :
    List FRow :=
  if cols.serial && !chosen.isEmpty then
    l.filter (fun r => chosen.contains (astypeStr r.serial))
  else l

/-- Free-text item search stage: active only when the stripped query is
non-empty. -/
def stageQuery (cols : Cols) (q : String) (l : List FRow) : List FRow :=
  if cols.item && !(strTrim q == "") then
    l.filter (fun r => containsCI (astypeStr r.item) (strTrim q))
  else l

/-- The quick-filter pipeline of the app, stages in source order: client,
document, status, transaction-date range, supply-date range, serial, item
text search. -/
def quick_filter (cols : Cols) (clients docs statuses : List String)
    (dr sr : Option (Date × Date)) (serials : List String) (q : String)
    (l : List FRow) : List FRow :=
  stageQuery cols q
    (stageSerial cols serials
      (stageRange cols.supply sr FRow.supply
        (stageRange cols.date dr FRow.date
          (stageStatus cols statuses
            (stageDoc cols docs
              (stageClient cols clients l))))))

/-- Round-half-even on rationals, modelling Python's `round` on the exact
value. -/
def roundHalfEven (x : ℚ) : Int :=
  let f := x.floor
  let r := x - (f : ℚ)
  if r < 1 / 2 then f
  else if r > 1 / 2 then f + 1
  else if f % 2 = 0 then f else f + 1

/-- Two-decimal rounding used by the message's price formatting. -/
def round2 (x : ℚ) : ℚ := (roundHalfEven (x * 100) : ℚ) / 100

/-- Price formatting of `build_message` (`as_price`): empty for a missing
value, otherwise the rounded number with the currency suffix. Text and date
cells are unreachable here, since a text price aborts the run before a
message is built. -/
def as_price : Cell → String
  | Cell.na => ""
  | Cell.num q => toString (round2 q) ++ " ש\"ח"
  | _ => ""

/-- Display form of a product cell inside a message line. -/
def cellText : Cell → String
  | Cell.na => ""
  | Cell.num q => toString q
  | Cell.str s => s
  | Cell.date d => toString (repr d)

/-- Fixed success sentence returned when the filtered set holds no
mismatched row. -/
def msgNoDiffs : String := "אין הבדלים בין המחירון למה ששילמת בפועל. ✅"

/-- The message builder of the source (`build_message`): filters the rows to
status "price differs"; with no such row returns the fixed success sentence,
otherwise a greeting (with a placeholder when the contact name is blank), a
fixed explanatory line, and one `product | expected | actual` line per
mismatch. -/
def build_message (df : List MRow) (prodIdx : Option Nat) (pIdx : Nat)
    (contact : String) : String :=
  let diffs := df.filter (fun r => r.status == stMismatch)
  if diffs.isEmpty then msgNoDiffs
  else
    let namePart := if strTrim contact = "" then "[שם]" else strTrim contact
    let header :=
      ["היי " ++ namePart ++ ",",
       "יש הבדל בין המחירון למה ששילמתי בפועל, הנה הרשימה:",
       "מוצר | מחירון | מה ששילמתי בפועל"]
    let lines := diffs.map (fun r =>
      (match prodIdx with
       | some i => cellText (cellAt r.cells i)
       | none => "") ++ " | " ++ as_price r.expected ++ " | " ++
        as_price (cellAt r.cells pIdx))
    String.intercalate "\n" (header ++ lines)

/-- A well-formed three-column price list with one row: SKU "1", item
"Apple", expected price 10. -/
def pricing3 : Table :=
  Table.mk ["מקט", "פריט", "מחירון"]
    [[Cell.str "1", Cell.str "Apple", Cell.num 10]]

/-- A three-column price list whose headers name no SKU concept at all. -/
def pricingABC : Table :=
  Table.mk ["a", "b", "c"]
    [[Cell.str "1", Cell.str "Apple", Cell.num 10]]

/-- A June transaction date. -/
def dJune : Date := Date.mk 2024 6 5

/-- A July transaction date. -/
def dJuly : Date := Date.mk 2024 7 5

/-- The standard expense headers used by the concrete runs. -/
def expHeaders : List String :=
  ["תאריך", "מקט", "פריט", "כמות", "מחיר לפני מע\"מ"]

/-- One well-formed June expense row: SKU "1", quantity 1, actual price 10. -/
def expRowGood : List Cell :=
  [Cell.date dJune, Cell.str "1", Cell.str "Apple", Cell.num 1, Cell.num 10]

/-- A well-formed expense table with the single June row. -/
def expenseGood : Table := Table.mk expHeaders [expRowGood]

/-- An expense table whose only row is dated July. -/
def expenseJuly : Table :=
  Table.mk expHeaders
    [[Cell.date dJuly, Cell.str "1", Cell.str "Apple", Cell.num 1,
      Cell.num 10]]

/-- An expense table whose June row carries non-numeric text in the
actual-price cell. -/
def expenseTextPrice : Table :=
  Table.mk expHeaders
    [[Cell.date dJune, Cell.str "1", Cell.str "Apple", Cell.num 1,
      Cell.str "abc"]]

/-- An expense table with no date column. -/
def expenseNoDate : Table :=
  Table.mk ["מקט", "פריט", "מחיר לפני מע\"מ"]
    [[Cell.str "1", Cell.str "Apple", Cell.num 10]]

/-- An expense table whose SKU header is spelled with an ASCII double quote
(and which is otherwise well-formed, with a June row). -/
def expenseQuoteSku : Table :=
  Table.mk ["תאריך", skuAsciiQuote, "פריט", "כמות", "מחיר לפני מע\"מ"]
    [[Cell.date dJune, Cell.str "1", Cell.str "Apple", Cell.num 1,
      Cell.num 10]]

/-- A column-presence record with every filterable column present. -/
def allCols : Cols := Cols.mk true true true true true true true

/-- A displayed row with every cell present (client "A", supply date in
June). -/
def frA : FRow :=
  FRow.mk (some "A") none stMatch (some dJune) (some dJune) (some "1")
    (some "Apple")

/-- A displayed row like `frA` but with a missing supply date. -/
def frB : FRow :=
  FRow.mk (some "A") none stMatch (some dJune) none (some "2")
    (some "Banana")

/-- A displayed row with client "B" and a present supply date. -/
def frS : FRow :=
  FRow.mk (some "B") none stMatch (some dJune) (some dJune) (some "3")
    (some "Cherry")

theorem ratSub_eq (a b : ℚ) : ratSub a b = a - b := (Rat.sub_def' a b).symm

theorem ratAbs_nonpos (x : ℚ) : ratAbs x ≤ 0 ↔ x = 0 := by
  unfold ratAbs
  by_cases h : x < 0
  · rw [if_pos h]
    constructor
    · intro h2; linarith
    · intro h2; rw [h2] at h; exact absurd h (by norm_num)
  · rw [if_neg h]
    constructor
    · intro h2; linarith [not_lt.mp h]
    · intro h2; rw [h2]

theorem status_match_iff (a b : ℚ) :
    (ratAbs (ratSub a b) ≤ (0 : ℚ)) ↔ a = b := by
  rw [ratSub_eq, ratAbs_nonpos, sub_eq_zero]

theorem status_row_match_cases (e a : Cell)
    (h : status_row e a = Except.ok stMatch) :
    ∃ q, e = Cell.num q ∧ a = Cell.num q := by
  cases e <;> cases a <;>
    simp [status_row, Cell.isna, stMissing, stActualMissing, stMatch,
      stMismatch] at h ⊢
  rename_i q r
  exact ((status_match_iff q r).mp h).symm

/-- Claim C1: for every reconciled row whose two price cells are each either
missing or numeric, the status is a function of the pair (expected, actual),
is exactly one of the four status strings, and follows the first-match-wins
order: missing expected price gives the missing-from-pricelist status, then a
missing actual price gives the actual-price-missing status, then exact
numeric equality (zero tolerance) gives the match status, else the mismatch
status. -/
theorem c1_status_classification (e a : Cell)
    (he : isNumOrNa e = true) (ha : isNumOrNa a = true) :
    ∃ s, status_row e a = Except.ok s ∧
      (s = stMissing ∨ s = stActualMissing ∨ s = stMatch ∨ s = stMismatch) ∧
      (s = stMissing ↔ e = Cell.na) ∧
      (s = stActualMissing ↔ (e ≠ Cell.na ∧ a = Cell.na)) ∧
      (s = stMatch ↔ ∃ q r, e = Cell.num q ∧ a = Cell.num r ∧ q = r) ∧
      (s = stMismatch ↔ ∃ q r, e = Cell.num q ∧ a = Cell.num r ∧ q ≠ r) := by
  cases e with
  | na =>
    refine ⟨stMissing, by simp [status_row, Cell.isna], Or.inl rfl,
      iff_of_true rfl rfl, iff_of_false (by decide) (by simp),
      iff_of_false (by decide) (by simp), iff_of_false (by decide) (by simp)⟩
  | str s => exact absurd he (by simp [isNumOrNa, Cell.isna, Cell.isNum])
  | date d => exact absurd he (by simp [isNumOrNa, Cell.isna, Cell.isNum])
  | num q =>
    cases a with
    | na =>
      refine ⟨stActualMissing, by simp [status_row, Cell.isna],
        Or.inr (Or.inl rfl),
        iff_of_false (by decide) (by simp),
        iff_of_true rfl ⟨by simp, rfl⟩,
        iff_of_false (by decide) (by simp),
        iff_of_false (by decide) (by simp)⟩
    | str s => exact absurd ha (by simp [isNumOrNa, Cell.isna, Cell.isNum])
    | date d => exact absurd ha (by simp [isNumOrNa, Cell.isna, Cell.isNum])
    | num r =>
      by_cases h : q = r
      · refine ⟨stMatch, ?_, Or.inr (Or.inr (Or.inl rfl)),
          iff_of_false (by decide) (by simp),
          iff_of_false (by decide) (by simp),
          iff_of_true rfl ⟨q, r, rfl, rfl, h⟩,
          iff_of_false (by decide) ?_⟩
        · simp only [status_row, Cell.isna, if_neg, Bool.false_eq_true,
            not_false_iff]
          rw [if_pos (status_match_iff q r |>.mpr h)]
        · rintro ⟨q2, r2, hq, hr, hne⟩
          injection hq with hq2; injection hr with hr2
          exact hne (hq2 ▸ hr2 ▸ h)
      · refine ⟨stMismatch, ?_, Or.inr (Or.inr (Or.inr rfl)),
          iff_of_false (by decide) (by simp),
          iff_of_false (by decide) (by simp),
          iff_of_false (by decide) ?_,
          iff_of_true rfl ⟨q, r, rfl, rfl, h⟩⟩
        · simp only [status_row, Cell.isna, if_neg, Bool.false_eq_true,
            not_false_iff]
          rw [if_neg (fun hc => h (status_match_iff q r |>.mp hc))]
        · rintro ⟨q2, r2, hq, hr, heq⟩
          injection hq with hq2; injection hr with hr2
          exact h (hq2 ▸ hr2 ▸ heq)

/-- Witness for C1 at a concrete pair: a present expected price and a missing
actual price classify as the actual-price-missing status. -/
theorem c1_witness :
    isNumOrNa (Cell.num 3) = true ∧
    ∃ s, status_row (Cell.num 3) Cell.na = Except.ok s ∧
      s = stActualMissing := by
  refine ⟨rfl, ?_⟩
  obtain ⟨s, hs, _, _, h2, _, _⟩ :=
    c1_status_classification (Cell.num 3) Cell.na rfl rfl
  exact ⟨s, hs, h2.mpr ⟨by simp, rfl⟩⟩

theorem isEmpty_iff_len {α : Type} (l : List α) :
    l.isEmpty = true ↔ l.length = 0 := by
  cases l <;> simp [List.isEmpty]

theorem rowOut_length (sIdx : Nat) (prows : List (List Cell))
    (r : List Cell) :
    (rowOut sIdx prows r).length =
      if (matchesFor sIdx prows r).isEmpty then 1
      else (matchesFor sIdx prows r).length := by
  unfold rowOut
  split
  · rfl
  · rw [List.length_map]

theorem rowOut_length_pos (sIdx : Nat) (prows : List (List Cell))
    (r : List Cell) : 1 ≤ (rowOut sIdx prows r).length := by
  rw [rowOut_length]
  split
  · exact Nat.le_refl 1
  · rename_i h
    have := (not_iff_not.mpr (isEmpty_iff_len (matchesFor sIdx prows r))).mp h
    omega

theorem rowOut_fst (sIdx : Nat) (prows : List (List Cell)) (r : List Cell)
    (pr : List Cell × Cell) (h : pr ∈ rowOut sIdx prows r) : pr.1 = r := by
  unfold rowOut at h
  split at h
  · rw [List.mem_singleton.mp h]
  · obtain ⟨p, _, hp⟩ := List.mem_map.mp h
    rw [← hp]

theorem mergeRows_length_ge (sIdx : Nat) (prows : List (List Cell)) :
    ∀ l : List (List Cell), l.length ≤ (mergeRows sIdx l prows).length
  | [] => by simp [mergeRows]
  | r :: rs => by
    have h1 := rowOut_length_pos sIdx prows r
    have h2 := mergeRows_length_ge sIdx prows rs
    simp only [mergeRows, List.length_append, List.length_cons]
    omega

theorem mergeRows_fst_mem (sIdx : Nat) (prows : List (List Cell)) :
    ∀ (l : List (List Cell)) (pr : List Cell × Cell),
      pr ∈ mergeRows sIdx l prows → pr.1 ∈ l
  | [], _, h => by simp [mergeRows] at h
  | r :: rs, pr, h => by
    rcases List.mem_append.mp h with h2 | h2
    · rw [rowOut_fst sIdx prows r pr h2]; exact List.mem_cons_self r rs
    · exact List.mem_cons_of_mem r (mergeRows_fst_mem sIdx prows rs pr h2)

theorem mergeRows_exists_of_mem (sIdx : Nat) (prows : List (List Cell)) :
    ∀ (l : List (List Cell)) (r : List Cell), r ∈ l →
      ∃ pr ∈ mergeRows sIdx l prows, pr.1 = r
  | [], _, h => absurd h (List.not_mem_nil _)
  | x :: rs, r, h => by
    rcases List.mem_cons.mp h with h2 | h2
    · subst h2
      obtain ⟨pr, hpr⟩ :=
        List.exists_mem_of_length_pos (rowOut_length_pos sIdx prows r)
      exact ⟨pr, List.mem_append_left _ hpr, rowOut_fst sIdx prows r pr hpr⟩
    · obtain ⟨pr, hm, he⟩ := mergeRows_exists_of_mem sIdx prows rs r h2
      exact ⟨pr, List.mem_append_right _ hm, he⟩

theorem mergeRows_length_eq_iff (sIdx : Nat) (prows : List (List Cell)) :
    ∀ l : List (List Cell),
      ((mergeRows sIdx l prows).length = l.length ↔
        ∀ r ∈ l, (matchesFor sIdx prows r).length ≤ 1)
  | [] => by simp [mergeRows]
  | r :: rs => by
    have h1 := rowOut_length_pos sIdx prows r
    have h2 := mergeRows_length_ge sIdx prows rs
    have ih := mergeRows_length_eq_iff sIdx prows rs
    have hro := rowOut_length sIdx prows r
    have hie := isEmpty_iff_len (matchesFor sIdx prows r)
    simp only [mergeRows, List.length_append, List.length_cons]
    constructor
    · intro h
      have hc1 : (rowOut sIdx prows r).length = 1 := by omega
      have hc2 : (mergeRows sIdx rs prows).length = rs.length := by omega
      intro x hx
      rcases List.mem_cons.mp hx with hx2 | hx2
      · subst hx2
        rw [hro] at hc1
        by_cases hemp : (matchesFor sIdx prows x).isEmpty = true
        · have := hie.mp hemp; omega
        · rw [if_neg hemp] at hc1; omega
      · exact (ih.mp hc2) x hx2
    · intro h
      have ha : (matchesFor sIdx prows r).length ≤ 1 :=
        h r (List.mem_cons_self r rs)
      have hb : (mergeRows sIdx rs prows).length = rs.length :=
        ih.mpr (fun x hx => h x (List.mem_cons_of_mem r hx))
      have hc : (rowOut sIdx prows r).length = 1 := by
        rw [hro]
        by_cases hemp : (matchesFor sIdx prows r).isEmpty = true
        · rw [if_pos hemp]
        · rw [if_neg hemp]
          have := (not_iff_not.mpr hie).mp hemp
          omega
      omega

/-- Claim C2: the reconciliation join is left-outer-preserving on the
month-filtered expense table: every filtered expense row yields at least one
reconciled row, every reconciled row stems from a filtered expense row
(price-list-only SKUs surface nothing), the reconciled row count is at least
the filtered count, and the counts are equal exactly when every filtered row
matches at most one price-list row. -/
theorem c2_join_cardinality (sIdx dIdx : Nat) (month : Int) (E P : Table) :
    (filterMonth dIdx month E.rows).length ≤
      (mergeRows sIdx (filterMonth dIdx month E.rows) P.rows).length ∧
    (∀ r ∈ filterMonth dIdx month E.rows,
      ∃ pr ∈ mergeRows sIdx (filterMonth dIdx month E.rows) P.rows,
        pr.1 = r) ∧
    (∀ pr ∈ mergeRows sIdx (filterMonth dIdx month E.rows) P.rows,
      pr.1 ∈ filterMonth dIdx month E.rows) ∧
    ((mergeRows sIdx (filterMonth dIdx month E.rows) P.rows).length =
        (filterMonth dIdx month E.rows).length ↔
      ∀ r ∈ filterMonth dIdx month E.rows,
        (matchesFor sIdx P.rows r).length ≤ 1) :=
  ⟨mergeRows_length_ge sIdx P.rows _,
   fun r hr => mergeRows_exists_of_mem sIdx P.rows _ r hr,
   fun pr hpr => mergeRows_fst_mem sIdx P.rows _ pr hpr,
   mergeRows_length_eq_iff sIdx P.rows _⟩

/-- Witness for C2 at a concrete input: with the single-row June expense
table and a one-row price list whose SKU matches at most once, the join
preserves the row count exactly. -/
theorem c2_witness :
    (mergeRows 1 (filterMonth 0 6 expenseGood.rows) pricing3.rows).length =
      (filterMonth 0 6 expenseGood.rows).length :=
  ((c2_join_cardinality 1 0 6 expenseGood pricing3).2.2.2).mpr (by decide)

/-- Counterexample to claim C3 as stated: with a present numeric expected
price and non-numeric text in the actual-price cell, the delta computation
raises a type error instead of yielding a null delta. -/
theorem c3_counterexample :
    deltaCell (Cell.str "abc") (Cell.num 10) = Except.error errType ∧
    deltaCell (Cell.str "abc") (Cell.num 10) ≠ Except.ok none := by decide

/-- Claim C3 (amended): the delta equals actual minus expected whenever both
prices are numeric, is null whenever one price is missing and the other is
missing or numeric, and equals zero whenever the status is the match status;
a non-numeric text price raises a type error instead of yielding null. -/
theorem c3_delta (qa qe : ℚ) (x e a : Cell) :
    deltaCell (Cell.num qa) (Cell.num qe) = Except.ok (some (qa - qe)) ∧
    (isNumOrNa x = true →
      deltaCell Cell.na x = Except.ok none ∧
      deltaCell x Cell.na = Except.ok none) ∧
    (status_row e a = Except.ok stMatch →
      deltaCell a e = Except.ok (some 0)) := by
  refine ⟨by simp [deltaCell, ratSub_eq], ?_, ?_⟩
  · intro hx
    cases x with
    | na => exact ⟨rfl, rfl⟩
    | num q => exact ⟨rfl, rfl⟩
    | str s => exact absurd hx (by simp [isNumOrNa, Cell.isna, Cell.isNum])
    | date d => exact absurd hx (by simp [isNumOrNa, Cell.isna, Cell.isNum])
  · intro h
    obtain ⟨q, hq, ha2⟩ := status_row_match_cases e a h
    subst hq; subst ha2
    simp [deltaCell, ratSub_eq]

/-- Witness for C3 at concrete prices: delta 2 for actual 12 against
expected 10, null delta when either price is missing, and delta zero on a
matching pair. -/
theorem c3_witness :
    deltaCell (Cell.num 12) (Cell.num 10) = Except.ok (some (12 - 10)) ∧
    deltaCell Cell.na (Cell.num 10) = Except.ok none ∧
    deltaCell (Cell.num 10) Cell.na = Except.ok none ∧
    deltaCell (Cell.num 10) (Cell.num 10) = Except.ok (some 0) := by
  obtain ⟨h1, h2, h3⟩ := c3_delta 12 10 (Cell.num 10) (Cell.num 10) (Cell.num 10)
  exact ⟨h1, (h2 rfl).1, (h2 rfl).2, h3 (by decide)⟩

theorem stageClient_sublist (cols : Cols) (chosen : List String)
    (l : List FRow) : (stageClient cols chosen l).Sublist l := by
  unfold stageClient
  split
  · exact List.filter_sublist l
  · exact List.Sublist.refl l

theorem stageDoc_sublist (cols : Cols) (chosen : List String)
    (l : List FRow) : (stageDoc cols chosen l).Sublist l := by
  unfold stageDoc
  split
  · exact List.filter_sublist l
  · exact List.Sublist.refl l

theorem stageStatus_sublist (cols : Cols) (chosen : List String)
    (l : List FRow) : (stageStatus cols chosen l).Sublist l := by
  unfold stageStatus
  split
  · exact List.filter_sublist l
  · exact List.Sublist.refl l

theorem stageRange_sublist (active : Bool) (range : Option (Date × Date))
    (get : FRow → Option Date) (l : List FRow) :
    (stageRange active range get l).Sublist l := by
  unfold stageRange
  split
  · split
    · exact List.filter_sublist l
    · exact List.Sublist.refl l
  · exact List.Sublist.refl l

theorem stageSerial_sublist (cols : Cols) (chosen : List String)
    (l : List FRow) : (stageSerial cols chosen l).Sublist l := by
  unfold stageSerial
  split
  · exact List.filter_sublist l
  · exact List.Sublist.refl l

theorem stageQuery_sublist (cols : Cols) (q : String) (l : List FRow) :
    (stageQuery cols q l).Sublist l := by
  unfold stageQuery
  split
  · exact List.filter_sublist l
  · exact List.Sublist.refl l

theorem quick_filter_sublist (cols : Cols)
    (clients docs statuses : List String) (dr sr : Option (Date × Date))
    (serials : List String) (q : String) (l : List FRow) :
    (quick_filter cols clients docs statuses dr sr serials q l).Sublist l := by
  unfold quick_filter
  exact (stageQuery_sublist _ _ _).trans
    ((stageSerial_sublist _ _ _).trans
      ((stageRange_sublist _ _ _ _).trans
        ((stageRange_sublist _ _ _ _).trans
          ((stageStatus_sublist _ _ _).trans
            ((stageDoc_sublist _ _ _).trans
              (stageClient_sublist _ _ _))))))

theorem stageClient_empty (cols : Cols) (l : List FRow) :
    stageClient cols [] l = l := by
  simp [stageClient]

theorem stageDoc_empty (cols : Cols) (l : List FRow) :
    stageDoc cols [] l = l := by
  simp [stageDoc]

theorem stageStatus_empty (cols : Cols) (l : List FRow) :
    stageStatus cols [] l = l := by
  simp [stageStatus]

theorem stageRange_none (active : Bool) (get : FRow → Option Date)
    (l : List FRow) : stageRange active none get l = l := by
  unfold stageRange
  split <;> rfl

theorem stageSerial_empty (cols : Cols) (l : List FRow) :
    stageSerial cols [] l = l := by
  simp [stageSerial]

theorem stageQuery_empty (cols : Cols) (l : List FRow) :
    stageQuery cols "" l = l := by
  have h : (strTrim "" == "") = true := by decide
  unfold stageQuery
  rw [h]
  simp

/-- Counterexample to claim C4 as stated: with every selection empty and the
search text empty (the zero-user-action default state, in which the two
date-range widgets hold their default full min-max ranges), a row whose
supply-date cell is missing is silently dropped, so the filtered result is
not the unchanged table; moreover activating an additional predicate (a
client selection) can strictly increase the row count, because it can make
the supply column all-missing, which deactivates the supply range filter. -/
theorem c4_counterexample :
    quick_filter allCols [] [] [] (some (dJune, dJune)) (some (dJune, dJune))
      [] "" [frA, frB] = [frA] ∧
    (quick_filter allCols [] [] [] (some (dJune, dJune))
      (some (dJune, dJune)) [] "" [frB, frB, frS]).length = 1 ∧
    (quick_filter allCols ["A"] [] [] (some (dJune, dJune))
      (some (dJune, dJune)) [] "" [frB, frB, frS]).length = 2 := by decide

/-- Claim C4 (amended): every filtered result is a sublist of the reconciled
table — filtering never increases the row count, never reorders and never
mutates surviving rows — and with every selection empty, the search text
empty, and no completed date-range selection active, the table is returned
unchanged; the default full date ranges, however, are active predicates that
drop rows with missing dates (see the counterexample). -/
theorem c4_filter_shape (cols : Cols) (clients docs statuses : List String)
    (dr sr : Option (Date × Date)) (serials : List String) (q : String)
    (l : List FRow) :
    (quick_filter cols clients docs statuses dr sr serials q l).Sublist l ∧
    (quick_filter cols clients docs statuses dr sr serials q l).length ≤
      l.length ∧
    quick_filter cols [] [] [] none none [] "" l = l := by
  refine ⟨quick_filter_sublist cols clients docs statuses dr sr serials q l,
    (quick_filter_sublist cols clients docs statuses dr sr serials q l).length_le,
    ?_⟩
  unfold quick_filter
  rw [stageClient_empty, stageDoc_empty, stageStatus_empty, stageRange_none,
    stageRange_none, stageSerial_empty, stageQuery_empty]

/-- Counterexample to claim C5 as stated: a run whose expense table carries
non-numeric text in a price cell raises a type error and aborts instead of
completing with the row classified as if the price were absent. -/
theorem c5_counterexample :
    compare_files pricing3 expenseTextPrice 6 = Except.error errType ∧
    run_compare pricing3 expenseTextPrice = Except.error errType := by decide

/-- Claim C5 (amended): a numeric-coercion failure is not absorbed — the
status computation raises a type error exactly when both price cells are
present but not both numeric, and the delta computation raises exactly when
either operand is present and non-numeric; the error propagates and aborts
the run (it is caught only by the top-level UI handler, which displays it as
a blocking error message). Only a genuinely missing price is classified as
absent. -/
theorem c5_type_error (e a : Cell) :
    ((∃ m, status_row e a = Except.error m) ↔
      (e ≠ Cell.na ∧ a ≠ Cell.na ∧
        ¬ (∃ q r, e = Cell.num q ∧ a = Cell.num r))) ∧
    ((∃ m, deltaCell a e = Except.error m) ↔
      ¬ ((a = Cell.na ∨ a.isNum = true) ∧
         (e = Cell.na ∨ e.isNum = true))) := by
  cases e <;> cases a <;>
    simp [status_row, deltaCell, Cell.isna, Cell.isNum]

/-- Counterexample to claim C6 as stated: the SKU spelling with an ASCII
double quote resolves to nothing — the quick-filter serial lookup returns
none on it, and a comparison run whose expense SKU header is so spelled
aborts with the missing-SKU error instead of resolving it to the SKU
concept. -/
theorem c6_counterexample :
    resolveSerialCol [skuAsciiQuote] = none ∧
    compare_files pricing3 expenseQuoteSku 6 = Except.error errSku := by decide

/-- Claim C6 (amended): header resolution performs no normalization; it is
exact string membership against fixed candidate lists. The quick-filter
serial column resolves exactly when one of the three exact spellings (plain,
gershayim U+05F4, ASCII apostrophe) is literally a header, and
`compare_files` requires the expense SKU header to be exactly the plain
spelling. -/
theorem c6_exact_resolution (hs : List String) :
    (resolveSerialCol hs).isSome = true ↔
      ("מקט" ∈ hs ∨ skuGershayim ∈ hs ∨ skuApostrophe ∈ hs) := by
  simp only [resolveSerialCol, serial_candidates, List.find?]
  by_cases h1 : hs.contains "מקט" <;>
    by_cases h2 : hs.contains skuGershayim <;>
      by_cases h3 : hs.contains skuApostrophe <;>
        simp_all [List.contains_iff_exists_mem_beq, beq_iff_eq, eq_comm]

theorem mapME_ok_mem {α β : Type} (f : α → Except String β) :
    ∀ (l : List α) (out : List β), mapME f l = Except.ok out →
      ∀ b ∈ out, ∃ a ∈ l, f a = Except.ok b
  | [], out, h => by
    simp only [mapME, Except.ok.injEq] at h
    subst h
    intro b hb
    exact absurd hb (List.not_mem_nil b)
  | a :: as, out, h => by
    unfold mapME at h
    cases hfa : f a with
    | error m => rw [hfa] at h; exact absurd h (by simp)
    | ok b0 =>
      rw [hfa] at h
      cases hrest : mapME f as with
      | error m => rw [hrest] at h; exact absurd h (by simp)
      | ok bs =>
        rw [hrest] at h
        have hout : out = b0 :: bs := (Except.ok.inj h).symm
        subst hout
        intro b hb
        rcases List.mem_cons.mp hb with hb2 | hb2
        · exact ⟨a, List.mem_cons_self a as, by rw [hb2]; exact hfa⟩
        · obtain ⟨a2, ha2, hf2⟩ := mapME_ok_mem f as bs hrest b hb2
          exact ⟨a2, List.mem_cons_of_mem a ha2, hf2⟩

theorem classifyRow_cells (pIdx : Nat) (pr : List Cell × Cell) (m : MRow)
    (h : classifyRow pIdx pr = Except.ok m) : m.cells = pr.1 := by
  unfold classifyRow at h
  cases hs : status_row pr.2 (cellAt pr.1 pIdx) with
  | error e => rw [hs] at h; exact absurd h (by simp)
  | ok st =>
    rw [hs] at h
    cases hd : deltaCell (cellAt pr.1 pIdx) pr.2 with
    | error e => rw [hd] at h; exact absurd h (by simp)
    | ok dl =>
      rw [hd] at h
      rw [← Except.ok.inj h]

theorem inMonth_elim (dIdx : Nat) (month : Int) (r : List Cell)
    (h : inMonth dIdx month r = true) :
    ∃ d, toDatetime (cellAt r dIdx) = some d ∧ d.m = month := by
  unfold inMonth at h
  cases ht : toDatetime (cellAt r dIdx) with
  | none => rw [ht] at h; exact absurd h (by simp)
  | some d =>
    rw [ht] at h
    exact ⟨d, rfl, beq_iff_eq.mp h⟩

/-- Counterexample to claim C7 as stated: with no date column in the expense
table the run raises the missing-date-column error; it does not return an
empty "no data" result. -/
theorem c7_counterexample :
    compare_files pricing3 expenseNoDate 6 = Except.error errDate ∧
    compare_files pricing3 expenseNoDate 6 ≠ Except.ok [] := by decide

/-- Claim C7 (amended): when the expense table has no date column (and the
price list passed its three-column positional rename), the run raises a
blocking error naming the date column and aborts before the temporal filter
and the join; the UI boundary catches it and shows it as a user-visible
error message. -/
theorem c7_missing_date (p e : Table) (hp : p.headers.length = 3)
    (hd : "תאריך" ∉ e.headers) :
    compare_files p e 6 = Except.error errDate := by
  unfold compare_files
  rw [if_pos hp, if_neg hd]

/-- Witness for C7 at a concrete input. -/
theorem c7_witness :
    compare_files pricing3 expenseNoDate 6 = Except.error errDate :=
  c7_missing_date pricing3 expenseNoDate rfl (by decide)

/-- Counterexample to claim C8 as stated: a three-column price list whose
headers name no SKU concept at all raises nothing — the run completes
successfully, because the price-list columns are renamed positionally and
never resolved. -/
theorem c8_counterexample :
    compare_files pricingABC expenseGood 6 =
      Except.ok [MRow.mk expRowGood (Cell.num 10) stMatch (some 0)] := by
  decide

/-- Claim C8 (amended): the missing-column errors of the run are: a generic
length-mismatch error (naming no concept) when the price list does not have
exactly three columns, and concept-naming errors for the expense table's
date column, actual-price column, and SKU column, in that order; the
price-list SKU and unit-price columns are taken positionally and their
absence is never detected. In each error case the run aborts with no
reconciled result. -/
theorem c8_missing_column_errors (p e : Table) :
    (p.headers.length ≠ 3 → compare_files p e 6 = Except.error errLen) ∧
    (p.headers.length = 3 → "תאריך" ∉ e.headers →
      compare_files p e 6 = Except.error errDate) ∧
    (p.headers.length = 3 → "תאריך" ∈ e.headers →
      findPriceCol e.headers = none →
      compare_files p e 6 = Except.error errPrice) ∧
    (p.headers.length = 3 → "תאריך" ∈ e.headers →
      findPriceCol e.headers ≠ none → "מקט" ∉ e.headers →
      compare_files p e 6 = Except.error errSku) := by
  refine ⟨?_, ?_, ?_, ?_⟩
  · intro h
    unfold compare_files
    rw [if_neg h]
  · intro h1 h2
    unfold compare_files
    rw [if_pos h1, if_neg h2]
  · intro h1 h2 h3
    unfold compare_files
    rw [if_pos h1, if_pos h2, h3]
  · intro h1 h2 h3 h4
    unfold compare_files
    rw [if_pos h1, if_pos h2]
    obtain ⟨pc, hpc⟩ := Option.ne_none_iff_exists'.mp h3
    rw [hpc]
    dsimp only
    rw [if_neg h4]

/-- Witness for C8 at concrete inputs: a two-column price list aborts with
the length-mismatch error, and an expense table lacking the date column
aborts with the date error. -/
theorem c8_witness :
    compare_files (Table.mk ["a", "b"] []) expenseGood 6 =
      Except.error errLen ∧
    compare_files pricing3 expenseNoDate 6 = Except.error errDate :=
  ⟨(c8_missing_column_errors (Table.mk ["a", "b"] []) expenseGood).1
      (by decide),
   (c8_missing_column_errors pricing3 expenseNoDate).2.1 rfl (by decide)⟩

/-- Counterexample to claim C9 as stated: a run whose only expense row is
dated July (with target month June) is not aborted — it completes with an
empty reconciled result, and the message builder then produces its
no-differences success message; no empty-period check exists. -/
theorem c9_counterexample :
    compare_files pricing3 expenseJuly 6 = Except.ok [] ∧
    build_message [] none 0 "" = msgNoDiffs := by decide

/-- Claim C9 (amended): when the temporal filter yields zero rows the run is
not aborted: the comparison completes normally with an empty reconciled
table (which the app then renders, exports, and summarizes with the
no-differences success message). -/
theorem c9_empty_period (p e : Table) (hp : p.headers.length = 3)
    (hd : "תאריך" ∈ e.headers)
    (hpc : findPriceCol e.headers ≠ none)
    (hsku : "מקט" ∈ e.headers)
    (hmonth : filterMonth (e.headers.findIdx (fun s => s == "תאריך")) 6
      e.rows = []) :
    compare_files p e 6 = Except.ok [] ∧
    build_message [] none 0 "" = msgNoDiffs := by
  constructor
  · unfold compare_files
    rw [if_pos hp, if_pos hd]
    obtain ⟨pc, hpc2⟩ := Option.ne_none_iff_exists'.mp hpc
    rw [hpc2]
    dsimp only
    rw [if_pos hsku, hmonth]
    rfl
  · rfl

/-- Witness for C9 at a concrete input: the July-only expense table. -/
theorem c9_witness :
    compare_files pricing3 expenseJuly 6 = Except.ok [] ∧
    build_message [] none 0 "" = msgNoDiffs :=
  c9_empty_period pricing3 expenseJuly rfl (by decide) (by decide)
    (by decide) (by decide)

/-- Claim C10: the UI trigger always invokes the comparison with the constant
target month 6 (June) and offers no month selection, so every row of any
successful run's output is dated in June — expense rows dated in any other
month are excluded regardless of user action. -/
theorem c10_month_always_six (p e : Table) (out : List MRow)
    (h : run_compare p e = Except.ok out) :
    run_compare p e = compare_files p e 6 ∧
    ∀ r ∈ out, ∃ d : Date,
      toDatetime (cellAt r.cells
        (e.headers.findIdx (fun s => s == "תאריך"))) = some d ∧
      d.m = 6 := by
  refine ⟨rfl, ?_⟩
  unfold run_compare compare_files at h
  by_cases hp : p.headers.length = 3
  · rw [if_pos hp] at h
    by_cases hd : "תאריך" ∈ e.headers
    · rw [if_pos hd] at h
      cases hpc : findPriceCol e.headers with
      | none => rw [hpc] at h; exact absurd h (by simp)
      | some pc =>
        rw [hpc] at h
        dsimp only at h
        by_cases hs : "מקט" ∈ e.headers
        · rw [if_pos hs] at h
          intro r hr
          obtain ⟨pr, hpr, hcr⟩ := mapME_ok_mem _ _ _ h r hr
          have hcells := classifyRow_cells _ pr r hcr
          have hmem := mergeRows_fst_mem _ _ _ pr hpr
          simp only [filterMonth] at hmem
          have hfil := (List.mem_filter.mp hmem).2
          rw [hcells]
          exact inMonth_elim _ 6 pr.1 hfil
        · rw [if_neg hs] at h; exact absurd h (by simp)
    · rw [if_neg hd] at h; exact absurd h (by simp)
  · rw [if_neg hp] at h; exact absurd h (by simp)

/-- Witness for C10 at a concrete successful run: the single output row of
the June fixture is dated in month 6. -/
theorem c10_witness :
    ∃ d : Date,
      toDatetime (cellAt expRowGood
        (expenseGood.headers.findIdx (fun s => s == "תאריך"))) = some d ∧
      d.m = 6 := by
  have h := c10_month_always_six pricing3 expenseGood
    [MRow.mk expRowGood (Cell.num 10) stMatch (some 0)] (by decide)
  exact h.2 (MRow.mk expRowGood (Cell.num 10) stMatch (some 0)) (by simp)

end FVC
